import Mathlib

/-!
Verification of the token-resolution and interlink-audit core of the
marketing-site repository.  Strings are modelled as `List Char`; the
JavaScript string operations used by the scripts (global literal
replacement, regex scanning for the fixed pattern set, `includes`,
`indexOf`, `trim`, `split('\n').length`) are embedded as executable
functions on `List Char`.
-/

set_option maxHeartbeats 4000000
set_option maxRecDepth 4000

abbrev Str := List Char

/-- JavaScript whitespace class `\s`, restricted to the ASCII range
(the inputs of all scripts are ASCII page markup). -/
def jsWs (c : Char) : Bool :=
  c = ' ' || c = '\t' || c = '\n' || c = '\r' || c = '\x0b' || c = '\x0c'

/-- JavaScript word-character class `\w`. -/
def jsWord (c : Char) : Bool :=
  ('a' ≤ c && c ≤ 'z') || ('A' ≤ c && c ≤ 'Z') || ('0' ≤ c && c ≤ '9') || c = '_'

/-- JavaScript `String.prototype.trim` (both ends, ASCII whitespace). -/
def jsTrim (s : Str) : Str :=
  ((s.dropWhile jsWs).reverse.dropWhile jsWs).reverse

/-- JavaScript `hay.includes(needle)`: `needle` occurs as a contiguous
substring of `hay`. -/
def containsSub (hay needle : Str) : Bool :=
  hay.tails.any (fun t => needle.isPrefixOf t)

/-- Index of the first occurrence of `needle` in `hay`
(JavaScript `hay.indexOf(needle)`), `none` when absent. -/
def firstOccIdx (hay needle : Str) : Option Nat :=
  match hay with
  | [] => if needle.isEmpty then some 0 else none
  | _ :: t =>
    if needle.isPrefixOf hay then some 0
    else (firstOccIdx t needle).map (· + 1)

/-- Line number reported by the scripts for a matched text:
`content.substring(0, content.indexOf(match)).split('\n').length`.
When `indexOf` returns `-1`, `substring(0, -1)` is empty and the
expression evaluates to 1. -/
def lineOfFirst (content m : Str) : Nat :=
  match firstOccIdx content m with
  | some i => (content.take i).count '\n' + 1
  | none => 1

/-! ### Global literal replacement

`updatedContent.replace(new RegExp(escapedOldValue, 'g'), newValue)` on a
regex-escaped literal replaces the leftmost non-overlapping occurrences of
the literal, scanning left to right. -/

def replaceAll (p r : Str) : Str → Str
  | [] => []
  | c :: ts =>
    if h : p ≠ [] ∧ p.isPrefixOf (c :: ts) then
      r ++ replaceAll p r ((c :: ts).drop p.length)
    else
      c :: replaceAll p r ts
termination_by t => t.length
decreasing_by
  · simp only [List.length_drop, List.length_cons]
    have hp : 0 < p.length := List.length_pos.mpr h.1
    omega
  · simp

theorem replaceAll_nil (p r : Str) : replaceAll p r [] = [] := by
  simp [replaceAll]

theorem prefix_append_split {α : Type} {a : List α} (s t : List α) (h : a <+: s ++ t) :
    a <+: s ∨ ∃ z, a = s ++ z ∧ z <+: t := by
  induction s generalizing a with
  | nil => exact Or.inr ⟨a, rfl, h⟩
  | cons c s' ih =>
    match a with
    | [] => exact Or.inl List.nil_prefix
    | c₁ :: a' =>
      rw [List.cons_append, List.cons_prefix_cons] at h
      rcases (ih h.2) with h1 | ⟨z, hz, hzt⟩
      · exact Or.inl (h.1 ▸ List.cons_prefix_cons.mpr ⟨rfl, h1⟩)
      · exact Or.inr ⟨z, by rw [h.1, hz, List.cons_append], hzt⟩

theorem infix_append_split {α : Type} {a : List α} (s t : List α) (h : a <:+: s ++ t) :
    a <:+: s ∨ a <:+: t ∨
      ∃ y z, a = y ++ z ∧ y ≠ [] ∧ z ≠ [] ∧ y <:+ s ∧ z <+: t := by
  induction s generalizing a with
  | nil => exact Or.inr (Or.inl h)
  | cons c s' ih =>
    rw [List.cons_append, List.infix_cons_iff] at h
    rcases h with h | h
    · have h' : a <+: (c :: s') ++ t := by rwa [List.cons_append]
      rcases prefix_append_split (a := a) (c :: s') t h' with h1 | ⟨z, hz, hzt⟩
      · exact Or.inl h1.isInfix
      · match z, hz with
        | [], hz =>
          exact Or.inl (by simp [hz])
        | z₀ :: z', hz =>
          exact Or.inr (Or.inr ⟨c :: s', z₀ :: z', hz, by simp, by simp,
            List.suffix_refl _, hzt⟩)
    · rcases ih h with h1 | h1 | ⟨y, z, hy, hy0, hz0, hys, hzt⟩
      · exact Or.inl (h1.trans (List.suffix_cons c s').isInfix)
      · exact Or.inr (Or.inl h1)
      · exact Or.inr (Or.inr ⟨y, z, hy, hy0, hz0, hys.trans (List.suffix_cons c s'), hzt⟩)

/-- The four ways a string `a` could overlap an inserted replacement `b`
inside surrounding text; `SafePair a b` says none of them is possible, so a
fresh occurrence of `a` can never be created by inserting `b`. -/
structure SafePair (a b : Str) : Prop where
  not_infix_left : ¬ a <:+: b
  not_infix_right : ¬ b <:+: a
  no_suffix_prefix : ∀ y : Str, y ≠ [] → y <:+ b → ¬ y <+: a
  no_prefix_suffix : ∀ y : Str, y ≠ [] → y <+: b → ¬ y <:+ a

/-- Executable check for `SafePair`. -/
def overlaps (a b : Str) : Bool :=
  b.tails.any (fun y => a.isPrefixOf y) ||
  a.tails.any (fun y => b.isPrefixOf y) ||
  b.tails.any (fun y => !y.isEmpty && y.isPrefixOf a) ||
  b.inits.any (fun y => !y.isEmpty && y.isSuffixOf a)

theorem safePair_of_overlaps_eq_false {a b : Str} (h : overlaps a b = false) :
    SafePair a b := by
  rw [overlaps] at h
  simp only [Bool.or_eq_false_iff, List.any_eq_false, List.mem_tails, List.mem_inits] at h
  obtain ⟨⟨⟨h1, h2⟩, h3⟩, h4⟩ := h
  refine ⟨?_, ?_, ?_, ?_⟩
  · rintro ⟨s₁, s₂, hb⟩
    have hy : a ++ s₂ <:+ b := ⟨s₁, by rw [← List.append_assoc, hb]⟩
    exact h1 _ hy (List.isPrefixOf_iff_prefix.mpr ⟨s₂, rfl⟩)
  · rintro ⟨s₁, s₂, ha⟩
    have hy : b ++ s₂ <:+ a := ⟨s₁, by rw [← List.append_assoc, ha]⟩
    exact h2 _ hy (List.isPrefixOf_iff_prefix.mpr ⟨s₂, rfl⟩)
  · intro y hy0 hyb hya
    have hne : y.isEmpty = false := by
      cases y with
      | nil => exact absurd rfl hy0
      | cons c cs => rfl
    refine h3 y hyb ?_
    rw [Bool.and_eq_true, hne]
    exact ⟨rfl, List.isPrefixOf_iff_prefix.mpr hya⟩
  · intro y hy0 hyb hya
    have hne : y.isEmpty = false := by
      cases y with
      | nil => exact absurd rfl hy0
      | cons c cs => rfl
    refine h4 y hyb ?_
    rw [Bool.and_eq_true, hne]
    exact ⟨rfl, List.isSuffixOf_iff_suffix.mpr hya⟩

theorem SafePair.pattern_ne_nil {p r : Str} (h : SafePair p r) : p ≠ [] := by
  intro hp
  exact h.not_infix_left (hp ▸ List.nil_infix)

theorem replaceAll_of_not_infix (p r : Str) (t : Str) (h : ¬ p <:+: t) :
    replaceAll p r t = t := by
  induction t using replaceAll.induct p r with
  | case1 => simp [replaceAll]
  | case2 c ts hcond ih =>
    exact absurd ((List.isPrefixOf_iff_prefix.mp hcond.2).isInfix) h
  | case3 c ts hcond ih =>
    rw [replaceAll]
    simp only [hcond, dite_false]
    rw [ih (fun hx => h (hx.trans (List.suffix_cons c ts).isInfix))]

theorem replaceAll_prefix_back (a p r : Str) (hs : SafePair a r) (t : Str) :
    ∀ x q : Str, a = x ++ q → x ≠ [] → q ≠ [] → q <+: replaceAll p r t → q <+: t := by
  induction t using replaceAll.induct p r with
  | case1 =>
    intro x q _ _ hq0 hq
    rw [replaceAll_nil] at hq
    exact absurd (List.prefix_nil.mp hq) hq0
  | case2 c ts hcond ih =>
    intro x q ha hx0 hq0 hq
    rw [replaceAll, dif_pos hcond] at hq
    rcases prefix_append_split r _ hq with hqr | ⟨z, hqz, _⟩
    · exact absurd ⟨x, ha.symm⟩ (hs.no_prefix_suffix q hq0 hqr)
    · exact absurd ⟨x, z, by rw [ha, hqz, ← List.append_assoc]⟩ hs.not_infix_right
  | case3 c ts hcond ih =>
    intro x q ha hx0 hq0 hq
    rw [replaceAll, dif_neg hcond] at hq
    match q, hq0 with
    | q₀ :: q₁, _ =>
      have hcq := List.cons_prefix_cons.mp hq
      by_cases hq1 : q₁ = []
      · subst hq1
        exact hcq.1 ▸ List.cons_prefix_cons.mpr ⟨rfl, List.nil_prefix⟩
      · have hrec := ih (x ++ [q₀]) q₁ (by rw [ha]; simp) (by simp) hq1 hcq.2
        exact hcq.1 ▸ List.cons_prefix_cons.mpr ⟨rfl, hrec⟩

theorem replaceAll_no_occurrence (a p r : Str) (hsp : SafePair p r) (hs : SafePair a r)
    (t : Str) (ht : a = p ∨ ¬ a <:+: t) : ¬ a <:+: replaceAll p r t := by
  induction t using replaceAll.induct p r with
  | case1 =>
    rw [replaceAll_nil]
    intro hinf
    have hnil : a = [] := List.infix_nil.mp hinf
    rcases ht with h | h
    · exact hsp.pattern_ne_nil (h.symm.trans hnil)
    · exact h (hnil ▸ List.nil_infix)
  | case2 c ts hcond ih =>
    rw [replaceAll, dif_pos hcond]
    intro hinf
    have ht' : a = p ∨ ¬ a <:+: (c :: ts).drop p.length := by
      rcases ht with h | h
      · exact Or.inl h
      · exact Or.inr (fun hx => h (hx.trans (List.drop_suffix _ _).isInfix))
    have ihn := ih ht'
    rcases infix_append_split r _ hinf with h1 | h1 | ⟨y, z, hy, hy0, _, hys, _⟩
    · exact hs.not_infix_left h1
    · exact ihn h1
    · exact hs.no_suffix_prefix y hy0 hys ⟨z, hy.symm⟩
  | case3 c ts hcond ih =>
    rw [replaceAll, dif_neg hcond]
    intro hinf
    have ht' : a = p ∨ ¬ a <:+: ts := by
      rcases ht with h | h
      · exact Or.inl h
      · exact Or.inr (fun hx => h (hx.trans (List.suffix_cons c ts).isInfix))
    have ihn := ih ht'
    rcases List.infix_cons_iff.mp hinf with h1 | h1
    · match a, h1, ht with
      | [], _, ht =>
        rcases ht with h | h
        · exact hsp.pattern_ne_nil h.symm
        · exact h List.nil_infix
      | a₀ :: a₁, h1, ht =>
        have hca := List.cons_prefix_cons.mp h1
        have hpre : a₀ :: a₁ <+: c :: ts := by
          by_cases ha1 : a₁ = []
          · subst ha1
            exact hca.1 ▸ List.cons_prefix_cons.mpr ⟨rfl, List.nil_prefix⟩
          · have hq := replaceAll_prefix_back (a₀ :: a₁) p r
              (by exact hs) ts [a₀] a₁ (by simp) (by simp) ha1 hca.2
            exact hca.1 ▸ List.cons_prefix_cons.mpr ⟨rfl, hq⟩
        rcases ht with h | h
        · exact hcond ⟨hsp.pattern_ne_nil, List.isPrefixOf_iff_prefix.mpr (h ▸ hpre)⟩
        · exact h hpre.isInfix
    · exact ihn h1

/-! ### scripts/apply-tokens.js -/

/-- `applyTokenReplacements` body: a left fold of global literal
replacements over the flattened mapping list (the order of
`Object.entries` over the twelve mapping objects of the script). -/
def applyMappingsL (ms : List (Str × Str)) (t : Str) : Str :=
  ms.foldl (fun acc m => replaceAll m.1 m.2 acc) t

/-- Every pattern of the table is overlap-free with every replacement of
the table (including its own). -/
def pairwiseSafe (ms : List (Str × Str)) : Bool :=
  ms.all fun m => ms.all fun m2 => !(overlaps m.1 m2.2)

theorem foldl_no_occurrence (full : List (Str × Str))
    (hfree : ∀ m ∈ full, ∀ m2 ∈ full, SafePair m.1 m2.2) :
    ∀ (todo done : List (Str × Str)) (t : Str), full = done ++ todo →
      (∀ m ∈ done, ¬ m.1 <:+: t) →
      ∀ m ∈ full, ¬ m.1 <:+: todo.foldl (fun acc m => replaceAll m.1 m.2 acc) t := by
  intro todo
  induction todo with
  | nil =>
    intro done t hsplit hdone m hm
    rw [List.foldl_nil]
    exact hdone m (by rwa [hsplit, List.append_nil] at hm)
  | cons m₀ rest ih =>
    intro done t hsplit hdone m hm
    rw [List.foldl_cons]
    have hm₀ : m₀ ∈ full := by
      rw [hsplit]; exact List.mem_append_right _ (List.mem_cons_self _ _)
    have hdone' : ∀ m' ∈ done ++ [m₀], ¬ m'.1 <:+: replaceAll m₀.1 m₀.2 t := by
      intro m' hm'
      rcases List.mem_append.mp hm' with hmem | hmem
      · have hm'full : m' ∈ full := by rw [hsplit]; exact List.mem_append_left _ hmem
        exact replaceAll_no_occurrence m'.1 m₀.1 m₀.2 (hfree m₀ hm₀ m₀ hm₀)
          (hfree m' hm'full m₀ hm₀) t (Or.inr (hdone m' hmem))
      · have hmeq : m' = m₀ := by simpa using hmem
        subst hmeq
        exact replaceAll_no_occurrence m'.1 m'.1 m'.2 (hfree m' hm₀ m' hm₀)
          (hfree m' hm₀ m' hm₀) t (Or.inl rfl)
    exact ih (done ++ [m₀]) (replaceAll m₀.1 m₀.2 t)
      (by rw [hsplit, List.append_assoc]; rfl) hdone' m hm

theorem foldl_fixed_of_no_occurrence (todo : List (Str × Str)) (t : Str)
    (h : ∀ m ∈ todo, ¬ m.1 <:+: t) :
    todo.foldl (fun acc m => replaceAll m.1 m.2 acc) t = t := by
  induction todo with
  | nil => rfl
  | cons m₀ rest ih =>
    rw [List.foldl_cons, replaceAll_of_not_infix _ _ _ (h m₀ (List.mem_cons_self _ _))]
    exact ih (fun m hm => h m (List.mem_cons_of_mem _ hm))

theorem applyMappingsL_idem (ms : List (Str × Str)) (hfree : pairwiseSafe ms = true)
    (t : Str) : applyMappingsL ms (applyMappingsL ms t) = applyMappingsL ms t := by
  have hfree' : ∀ m ∈ ms, ∀ m2 ∈ ms, SafePair m.1 m2.2 := by
    intro m hm m2 hm2
    apply safePair_of_overlaps_eq_false
    have h1 := (List.all_eq_true.mp hfree) m hm
    have h2 := (List.all_eq_true.mp h1) m2 hm2
    simpa using h2
  have hno := foldl_no_occurrence ms hfree' ms [] t rfl (by simp)
  exact foldl_fixed_of_no_occurrence ms _ hno

/-- The flattened replacement table of `scripts/apply-tokens.js`:
`COLOR_MAPPINGS, SPACING_MAPPINGS, FONT_SIZE_MAPPINGS, SHADOW_MAPPINGS,
RADIUS_MAPPINGS, LINE_HEIGHT_MAPPINGS, FONT_WEIGHT_MAPPINGS,
LETTER_SPACING_MAPPINGS, MAX_WIDTH_MAPPINGS, Z_INDEX_MAPPINGS,
TRANSITION_MAPPINGS, FONT_FAMILY_MAPPINGS`, each in `Object.entries`
order (for the all-numeric keys of the weight and z-index tables the
JavaScript integer-key ordering coincides with the written order). -/
def TOKEN_MAPPINGS : List (String × String) := [
  ("#16324F", "var(--color-brand-primary)"),
  ("#FF7A00", "var(--color-brand-secondary)"),
  ("#32C671", "var(--color-brand-accent)"),
  ("#005F5F", "var(--color-brand-teal-primary)"),
  ("#008080", "var(--color-brand-teal-secondary)"),
  ("#4A9B9B", "var(--color-brand-teal-light)"),
  ("#FFFFFF", "var(--color-surface-primary)"),
  ("#F6F8FB", "var(--color-surface-secondary)"),
  ("#FAFAFA", "var(--color-surface-secondary)"),
  ("#0F172A", "var(--color-text-primary)"),
  ("#475569", "var(--color-text-muted)"),
  ("#E2E8F0", "var(--color-border-primary)"),
  ("#E5E5E5", "var(--color-border-primary)"),
  ("#cbd5e1", "var(--color-text-muted)"),
  ("#F59E0B", "var(--color-state-warning)"),
  ("#dbeafe", "var(--color-surface-tertiary)"),
  ("#F8FAFF", "var(--color-surface-tertiary)"),
  ("0.375rem", "var(--space-sm)"),
  ("0.75rem", "var(--space-lg)"),
  ("1rem", "var(--space-xl)"),
  ("1.5rem", "var(--space-2xl)"),
  ("2rem", "var(--space-3xl)"),
  ("3rem", "var(--space-4xl)"),
  ("4rem", "var(--space-5xl)"),
  ("clamp(2rem, 2.5vw + 1.2rem, 3rem)", "var(--font-size-hero)"),
  ("clamp(1.375rem, 1.5vw + 1rem, 2rem)", "var(--font-size-h2)"),
  ("1rem", "var(--font-size-base)"),
  ("0.9rem", "var(--font-size-sm)"),
  ("1.1rem", "var(--font-size-lg)"),
  ("1.2rem", "var(--font-size-xl)"),
  ("0 1px 2px rgba(0,0,0,.06)", "var(--shadow-sm)"),
  ("0 6px 16px rgba(0,0,0,.10)", "var(--shadow-base)"),
  ("0 4px 8px rgba(0,0,0,.08)", "var(--shadow-base)"),
  ("0 8px 16px rgba(0,0,0,.12)", "var(--shadow-md)"),
  ("0 16px 32px rgba(0,0,0,.16)", "var(--shadow-lg)"),
  ("0.5rem", "var(--radius-base)"),
  ("0.75rem", "var(--radius-md)"),
  ("1rem", "var(--radius-lg)"),
  ("0.4rem", "var(--radius-base)"),
  ("0.6rem", "var(--radius-base)"),
  ("999px", "var(--radius-full)"),
  ("9999px", "var(--radius-full)"),
  ("1.15", "var(--line-height-tight)"),
  ("1.6", "var(--line-height-relaxed)"),
  ("1.5", "var(--line-height-normal)"),
  ("400", "var(--font-weight-normal)"),
  ("500", "var(--font-weight-medium)"),
  ("600", "var(--font-weight-semibold)"),
  ("700", "var(--font-weight-bold)"),
  ("0.06em", "var(--letter-spacing-widest)"),
  ("1200px", "var(--max-width-wrap)"),
  ("50", "var(--z-sticky)"),
  ("1000", "var(--z-skipLink)"),
  ("0.15s", "var(--transition-duration-fast)"),
  ("0.25s", "var(--transition-duration-base)"),
  ("0.4s", "var(--transition-duration-slow)"),
  ("0.3s", "var(--transition-duration-base)"),
  ("ui-sans-serif, system-ui, -apple-system, Segoe UI, Roboto, Inter, \"Helvetica Neue\", Arial, \"Noto Sans\", \"Liberation Sans\", sans-serif",
   "var(--font-family-sans)")]

def charMappings : List (Str × Str) :=
  TOKEN_MAPPINGS.map (fun m => (m.1.data, m.2.data))

/-- `applyTokenReplacements` of `scripts/apply-tokens.js`. -/
def applyTokenReplacements (content : String) : String :=
  ⟨applyMappingsL charMappings content.data⟩

/-- One row of the safety check: the literal `a` is overlap-free with
every replacement string of the table. -/
def rowSafe (a : Str) : Bool :=
  charMappings.all fun m2 => !(overlaps a m2.2)

theorem rowSafe_0 : rowSafe "#16324F".data = true := by decide

theorem rowSafe_1 : rowSafe "#FF7A00".data = true := by decide

theorem rowSafe_2 : rowSafe "#32C671".data = true := by decide

theorem rowSafe_3 : rowSafe "#005F5F".data = true := by decide

theorem rowSafe_4 : rowSafe "#008080".data = true := by decide

theorem rowSafe_5 : rowSafe "#4A9B9B".data = true := by decide

theorem rowSafe_6 : rowSafe "#FFFFFF".data = true := by decide

theorem rowSafe_7 : rowSafe "#F6F8FB".data = true := by decide

theorem rowSafe_8 : rowSafe "#FAFAFA".data = true := by decide

theorem rowSafe_9 : rowSafe "#0F172A".data = true := by decide

theorem rowSafe_10 : rowSafe "#475569".data = true := by decide

theorem rowSafe_11 : rowSafe "#E2E8F0".data = true := by decide

theorem rowSafe_12 : rowSafe "#E5E5E5".data = true := by decide

theorem rowSafe_13 : rowSafe "#cbd5e1".data = true := by decide

theorem rowSafe_14 : rowSafe "#F59E0B".data = true := by decide

theorem rowSafe_15 : rowSafe "#dbeafe".data = true := by decide

theorem rowSafe_16 : rowSafe "#F8FAFF".data = true := by decide

theorem rowSafe_17 : rowSafe "0.375rem".data = true := by decide

theorem rowSafe_18 : rowSafe "0.75rem".data = true := by decide

theorem rowSafe_19 : rowSafe "1rem".data = true := by decide

theorem rowSafe_20 : rowSafe "1.5rem".data = true := by decide

theorem rowSafe_21 : rowSafe "2rem".data = true := by decide

theorem rowSafe_22 : rowSafe "3rem".data = true := by decide

theorem rowSafe_23 : rowSafe "4rem".data = true := by decide

theorem rowSafe_24 : rowSafe "clamp(2rem, 2.5vw + 1.2rem, 3rem)".data = true := by decide

theorem rowSafe_25 : rowSafe "clamp(1.375rem, 1.5vw + 1rem, 2rem)".data = true := by decide

theorem rowSafe_26 : rowSafe "1rem".data = true := by decide

theorem rowSafe_27 : rowSafe "0.9rem".data = true := by decide

theorem rowSafe_28 : rowSafe "1.1rem".data = true := by decide

theorem rowSafe_29 : rowSafe "1.2rem".data = true := by decide

theorem rowSafe_30 : rowSafe "0 1px 2px rgba(0,0,0,.06)".data = true := by decide

theorem rowSafe_31 : rowSafe "0 6px 16px rgba(0,0,0,.10)".data = true := by decide

theorem rowSafe_32 : rowSafe "0 4px 8px rgba(0,0,0,.08)".data = true := by decide

theorem rowSafe_33 : rowSafe "0 8px 16px rgba(0,0,0,.12)".data = true := by decide

theorem rowSafe_34 : rowSafe "0 16px 32px rgba(0,0,0,.16)".data = true := by decide

theorem rowSafe_35 : rowSafe "0.5rem".data = true := by decide

theorem rowSafe_36 : rowSafe "0.75rem".data = true := by decide

theorem rowSafe_37 : rowSafe "1rem".data = true := by decide

theorem rowSafe_38 : rowSafe "0.4rem".data = true := by decide

theorem rowSafe_39 : rowSafe "0.6rem".data = true := by decide

theorem rowSafe_40 : rowSafe "999px".data = true := by decide

theorem rowSafe_41 : rowSafe "9999px".data = true := by decide

theorem rowSafe_42 : rowSafe "1.15".data = true := by decide

theorem rowSafe_43 : rowSafe "1.6".data = true := by decide

theorem rowSafe_44 : rowSafe "1.5".data = true := by decide

theorem rowSafe_45 : rowSafe "400".data = true := by decide

theorem rowSafe_46 : rowSafe "500".data = true := by decide

theorem rowSafe_47 : rowSafe "600".data = true := by decide

theorem rowSafe_48 : rowSafe "700".data = true := by decide

theorem rowSafe_49 : rowSafe "0.06em".data = true := by decide

theorem rowSafe_50 : rowSafe "1200px".data = true := by decide

theorem rowSafe_51 : rowSafe "50".data = true := by decide

theorem rowSafe_52 : rowSafe "1000".data = true := by decide

theorem rowSafe_53 : rowSafe "0.15s".data = true := by decide

theorem rowSafe_54 : rowSafe "0.25s".data = true := by decide

theorem rowSafe_55 : rowSafe "0.4s".data = true := by decide

theorem rowSafe_56 : rowSafe "0.3s".data = true := by decide

theorem rowSafe_57 : rowSafe "ui-sans-serif, system-ui, -apple-system, Segoe UI, Roboto, Inter, \"Helvetica Neue\", Arial, \"Noto Sans\", \"Liberation Sans\", sans-serif".data = true := by decide


/-- Every literal of the table is overlap-free with every replacement
string of the table (58 x 58 pairs, checked row by row). -/
theorem charMappings_safe : pairwiseSafe charMappings = true := by
  rw [pairwiseSafe]
  apply List.all_eq_true.mpr
  intro m hm
  show rowSafe m.1 = true
  simp only [charMappings, TOKEN_MAPPINGS, List.map_cons, List.map_nil] at hm
  fin_cases hm
  exacts [rowSafe_0, rowSafe_1, rowSafe_2, rowSafe_3, rowSafe_4, rowSafe_5, rowSafe_6, rowSafe_7, rowSafe_8, rowSafe_9, rowSafe_10, rowSafe_11, rowSafe_12, rowSafe_13, rowSafe_14, rowSafe_15, rowSafe_16, rowSafe_17, rowSafe_18, rowSafe_19, rowSafe_20, rowSafe_21, rowSafe_22, rowSafe_23, rowSafe_24, rowSafe_25, rowSafe_26, rowSafe_27, rowSafe_28, rowSafe_29, rowSafe_30, rowSafe_31, rowSafe_32, rowSafe_33, rowSafe_34, rowSafe_35, rowSafe_36, rowSafe_37, rowSafe_38, rowSafe_39, rowSafe_40, rowSafe_41, rowSafe_42, rowSafe_43, rowSafe_44, rowSafe_45, rowSafe_46, rowSafe_47, rowSafe_48, rowSafe_49, rowSafe_50, rowSafe_51, rowSafe_52, rowSafe_53, rowSafe_54, rowSafe_55, rowSafe_56, rowSafe_57]

/-! ### A matcher engine for the JavaScript regexes used by the scripts

A matcher is written in continuation-passing style: each piece consumes
characters from the front of the input, then runs the continuation on the
rest, adding the number of characters it consumed.  Greedy quantifiers try
the longest run first and backtrack through the continuation, and
alternations try their branches left to right — the same search order as
the JavaScript regex engine, so a pattern built from these pieces matches
exactly the same spans. -/

abbrev MCont := Str → Option Nat

/-- End of pattern: matches the empty string. -/
def pDone : MCont := fun _ => some 0

/-- A single literal character. -/
def pChar (c : Char) (k : MCont) : MCont := fun s =>
  match s with
  | [] => none
  | x :: xs => if x = c then (k xs).map (· + 1) else none

/-- A literal string. -/
def pLit (cs : Str) (k : MCont) : MCont := fun s =>
  if cs.isPrefixOf s then (k (s.drop cs.length)).map (· + cs.length) else none

/-- A single character of a class. -/
def pCls (f : Char → Bool) (k : MCont) : MCont := fun s =>
  match s with
  | [] => none
  | x :: xs => if f x then (k xs).map (· + 1) else none

/-- Greedy `[class]*` with backtracking (longest run first). -/
def pStar (f : Char → Bool) (k : MCont) : MCont
  | [] => k []
  | x :: xs =>
    if f x then
      match pStar f k xs with
      | some n => some (n + 1)
      | none => k (x :: xs)
    else k (x :: xs)

/-- Greedy `[class]+`. -/
def pPlus (f : Char → Bool) (k : MCont) : MCont := pCls f (pStar f k)

/-- Greedy `piece?`: try with the piece first, then without. -/
def pOpt (piece : MCont → MCont) (k : MCont) : MCont := fun s =>
  match piece k s with
  | some n => some n
  | none => k s

/-- Greedy `[class]{0,n}` with backtracking. -/
def pRepUpTo (f : Char → Bool) : Nat → MCont → MCont
  | 0, k => k
  | n + 1, k => fun s =>
    match s with
    | [] => k []
    | x :: xs =>
      if f x then
        match pRepUpTo f n k xs with
        | some m => some (m + 1)
        | none => k (x :: xs)
      else k (x :: xs)

/-- Alternation of literal strings, tried left to right with
backtracking through the continuation. -/
def pAlts : List Str → MCont → MCont
  | [], _ => fun _ => none
  | a :: rest, k => fun s =>
    match pLit a k s with
    | some n => some n
    | none => pAlts rest k s

/-- Negative lookahead `(?![class])`. -/
def pNegAheadCls (f : Char → Bool) (k : MCont) : MCont := fun s =>
  match s with
  | [] => k s
  | x :: _ => if f x then none else k s

/-- Negative lookahead on an alternation of literals, e.g. `(?!hero|h2)`. -/
def pNegAheadLits (alts : List Str) (k : MCont) : MCont := fun s =>
  if alts.any (fun a => a.isPrefixOf s) then none else k s

/-- Case-insensitive prefix test (ASCII folding, for the `/i` regexes). -/
def ciPrefixOf : Str → Str → Bool
  | [], _ => true
  | _ :: _, [] => false
  | c :: cs, x :: xs => (c.toLower = x.toLower) && ciPrefixOf cs xs

/-- Case-insensitive literal string. -/
def pLitCI (cs : Str) (k : MCont) : MCont := fun s =>
  if ciPrefixOf cs s then (k (s.drop cs.length)).map (· + cs.length) else none

/-- Positive lookahead on a case-insensitive alternation of literals,
e.g. `(?=<section|<main)` under `/i`. -/
def pAheadCI (alts : List Str) (k : MCont) : MCont := fun s =>
  if alts.any (fun a => ciPrefixOf a s) then k s else none

/-- A top-level pattern: the matcher may inspect the character just before
the current position (for `(?<!\w)` lookbehinds). -/
abbrev MPattern := Option Char → MCont

def noLB (m : MCont) : MPattern := fun _ => m

def withNegBehind (f : Char → Bool) (m : MCont) : MPattern := fun prev s =>
  match prev with
  | some c => if f c then none else m s
  | none => m s

/-- Scanner loop of `content.match(pattern)` with the `g` flag: all
leftmost non-overlapping matches, scanning left to right.  The `fuel`
argument only makes the recursion structural (each step consumes at least
one character, so `fuel = s.length` never runs out).  None of the
embedded patterns can match the empty string, so the empty-match advance
rule of the JavaScript engine never fires; a zero-length result is
treated as no match. -/
def jsMatchAllGo (pat : MPattern) : Nat → Option Char → Str → List Str
  | 0, _, _ => []
  | fuel + 1, prev, s =>
    match s with
    | [] => []
    | c :: rest =>
      match pat prev (c :: rest) with
      | some (n + 1) =>
        (c :: rest).take (n + 1) ::
          jsMatchAllGo pat fuel ((c :: rest).take (n + 1)).getLast? ((c :: rest).drop (n + 1))
      | _ => jsMatchAllGo pat fuel (some c) rest

/-- `content.match(pattern)` with the `g` flag. -/
def jsMatchAll (pat : MPattern) (prev : Option Char) (s : Str) : List Str :=
  jsMatchAllGo pat s.length prev s

/-- Loop of `str.replace(pattern, replacement)` with the `g` flag and a
plain replacement string (no `$` patterns occur in the scripts); `fuel`
as in `jsMatchAllGo`. -/
def jsReplaceReGo (pat : MPattern) (rep : Str) : Nat → Option Char → Str → Str
  | 0, _, s => s
  | fuel + 1, prev, s =>
    match s with
    | [] => []
    | c :: rest =>
      match pat prev (c :: rest) with
      | some (n + 1) =>
        rep ++ jsReplaceReGo pat rep fuel ((c :: rest).take (n + 1)).getLast?
          ((c :: rest).drop (n + 1))
      | _ => c :: jsReplaceReGo pat rep fuel (some c) rest

/-- `str.replace(pattern, replacement)` with the `g` flag. -/
def jsReplaceRe (pat : MPattern) (rep : Str) (prev : Option Char) (s : Str) : Str :=
  jsReplaceReGo pat rep s.length prev s

/-- `pattern.test(str)` (no `g` flag). -/
def jsTest (pat : MPattern) : Option Char → Str → Bool
  | prev, [] => (pat prev []).isSome
  | prev, c :: rest =>
    match pat prev (c :: rest) with
    | some _ => true
    | none => jsTest pat (some c) rest

/-- `str.replace(pattern, f)` without the `g` flag: only the first match
is replaced, and the replacement may depend on the matched text (`$&`). -/
def jsReplaceFirst (pat : MPattern) (repOf : Str → Str) : Option Char → Str → Str
  | _, [] => []
  | prev, c :: rest =>
    match pat prev (c :: rest) with
    | some n => repOf ((c :: rest).take n) ++ (c :: rest).drop n
    | none => c :: jsReplaceFirst pat repOf (some c) rest

def isDigit (c : Char) : Bool := '0' ≤ c && c ≤ '9'

def isHexDigit (c : Char) : Bool :=
  isDigit c || ('a' ≤ c && c ≤ 'f') || ('A' ≤ c && c ≤ 'F')

def isDigitDot (c : Char) : Bool := isDigit c || c = '.'

/-! ### scripts/verify-design-tokens.js -/

/-- `#[0-9a-fA-F]{3,6}(?![a-fA-F0-9])` -/
def patHexColor : MPattern := noLB <|
  pChar '#' <| pCls isHexDigit <| pCls isHexDigit <| pCls isHexDigit <|
  pRepUpTo isHexDigit 3 <| pNegAheadCls isHexDigit <| pDone

/-- `rgba?\(\s*\d+\s*,\s*\d+\s*,\s*\d+\s*(?:,\s*[\d.]+)?\s*\)` -/
def patRgb : MPattern := noLB <|
  pLit "rgb".data <| pOpt (pChar 'a') <| pChar '(' <|
  pStar jsWs <| pPlus isDigit <| pStar jsWs <| pChar ',' <|
  pStar jsWs <| pPlus isDigit <| pStar jsWs <| pChar ',' <|
  pStar jsWs <| pPlus isDigit <| pStar jsWs <|
  pOpt (fun k => pChar ',' <| pStar jsWs <| pPlus isDigitDot <| k) <|
  pStar jsWs <| pChar ')' <| pDone

/-- `hsla?\(\s*\d+\s*,\s*[\d.]+\s*,\s*[\d.]+\s*(?:,\s*[\d.]+)?\s*\)` -/
def patHsl : MPattern := noLB <|
  pLit "hsl".data <| pOpt (pChar 'a') <| pChar '(' <|
  pStar jsWs <| pPlus isDigit <| pStar jsWs <| pChar ',' <|
  pStar jsWs <| pPlus isDigitDot <| pStar jsWs <| pChar ',' <|
  pStar jsWs <| pPlus isDigitDot <| pStar jsWs <|
  pOpt (fun k => pChar ',' <| pStar jsWs <| pPlus isDigitDot <| k) <|
  pStar jsWs <| pChar ')' <| pDone

/-- `(?<!\w)(?:0\.25rem|0\.375rem|0\.5rem|0\.75rem|1rem|1\.25rem|1\.5rem|2rem|3rem|4rem)(?!\w)` -/
def patSpacing : MPattern := withNegBehind jsWord <|
  pAlts ["0.25rem".data, "0.375rem".data, "0.5rem".data, "0.75rem".data, "1rem".data,
    "1.25rem".data, "1.5rem".data, "2rem".data, "3rem".data, "4rem".data] <|
  pNegAheadCls jsWord <| pDone

/-- `(?<!\w)(?:0\.75rem|0\.875rem|1rem|1\.125rem|1\.25rem|1\.5rem|1\.875rem|2\.25rem|3rem)(?!\w)` -/
def patFontSize : MPattern := withNegBehind jsWord <|
  pAlts ["0.75rem".data, "0.875rem".data, "1rem".data, "1.125rem".data, "1.25rem".data,
    "1.5rem".data, "1.875rem".data, "2.25rem".data, "3rem".data] <|
  pNegAheadCls jsWord <| pDone

/-- `(?<!\w)(?:0\.25rem|0\.5rem|0\.75rem|1rem|1\.5rem)(?!\w)` -/
def patRadius : MPattern := withNegBehind jsWord <|
  pAlts ["0.25rem".data, "0.5rem".data, "0.75rem".data, "1rem".data, "1.5rem".data] <|
  pNegAheadCls jsWord <| pDone

/-- `box-shadow:\s*[^;]*rgba?\([^)]*\)[^;]*;` -/
def patBoxShadow : MPattern := noLB <|
  pLit "box-shadow:".data <| pStar jsWs <|
  pStar (fun c => c ≠ ';') <| pLit "rgb".data <| pOpt (pChar 'a') <| pChar '(' <|
  pStar (fun c => c ≠ ')') <| pChar ')' <|
  pStar (fun c => c ≠ ';') <| pChar ';' <| pDone

/-- `z-index:\s*\d+` -/
def patZIndex : MPattern := noLB <|
  pLit "z-index:".data <| pStar jsWs <| pPlus isDigit <| pDone

def HARDCODED_PATTERNS : List MPattern :=
  [patHexColor, patRgb, patHsl, patSpacing, patFontSize, patRadius, patBoxShadow, patZIndex]

def ALLOWED_EXCEPTIONS : List Str :=
  ["0px".data, "0rem".data, "0".data, "1px".data, "2px".data, "3px".data, "4px".data,
   "8px".data, "100%".data, "50%".data, "auto".data, "none".data, "transparent".data,
   "inherit".data, "currentColor".data, "initial".data, "unset".data]

structure HardIssue where
  line : Nat
  value : Str
  pattern : Nat
deriving DecidableEq

/-- The body of the `forEach` over one pattern of `findHardcodedValues`:
every match of the pattern is checked against the exception list with
`match.includes(exception)` and, if no exception occurs inside it, pushed
with the line of the first occurrence of the matched text, the trimmed
matched text, and the pattern index. -/
def hardIssuesFor (content : Str) (pi : Nat × MPattern) : List HardIssue :=
  (jsMatchAll pi.2 none content).filterMap fun m =>
    if ALLOWED_EXCEPTIONS.any (fun e => containsSub m e) then none
    else some ⟨lineOfFirst content m, jsTrim m, pi.1⟩

/-- `findHardcodedValues(content, filePath)` (the constant fields
`type: 'hardcoded_value'` and `file: filePath` are omitted from the
issue record). -/
def findHardcodedValues (content : Str) : List HardIssue :=
  HARDCODED_PATTERNS.enum.flatMap (hardIssuesFor content)

structure UnusedIssue where
  line : Nat
  token : Str
deriving DecidableEq

/-- `var\(--[^)]+\)` -/
def patVarRef : MPattern := noLB <|
  pLit "var(--".data <| pPlus (fun c => c ≠ ')') <| pChar ')' <| pDone

/-- `--[^:]+:` (token declarations of tokens.css) -/
def patCssDecl : MPattern := noLB <|
  pLit "--".data <| pPlus (fun c => c ≠ ':') <| pChar ':' <| pDone

/-- `var\(--|\)` (used with `g` to strip the reference syntax) -/
def patVarStrip : MPattern := noLB <| pAlts ["var(--".data, ")".data] pDone

/-- `[...new Set(xs)]`: deduplication keeping first occurrences. -/
def uniqueFirst (l : List Str) : List Str :=
  l.foldl (fun acc x => if acc.contains x then acc else acc ++ [x]) []

/-- `findUnusedTokens(content, filePath)`; the `tokens.css` read is the
`tokensCss` argument, `Except.error` playing the role of the caught
`readFileSync` failure (which leaves `availableTokens` empty). -/
def findUnusedTokens (tokensCss : Except Unit Str) (content : Str) : List UnusedIssue :=
  match jsMatchAll patVarRef none content with
  | [] => []
  | tokenMatches =>
    let availableTokens : List Str :=
      match tokensCss with
      | .ok tc =>
        (jsMatchAll patCssDecl none tc).map fun m =>
          m.filter (fun c => !(c = ':' || jsWs c))
      | .error _ => []
    let usedTokens := uniqueFirst (tokenMatches.map (fun m => jsReplaceRe patVarStrip [] none m))
    usedTokens.filterMap fun token =>
      if availableTokens.contains token then none
      else some ⟨lineOfFirst content ("var(--".data ++ token ++ ")".data), token⟩

structure LegacyIssue where
  line : Nat
  value : Str
  suggestion : Str
  message : Str
deriving DecidableEq

/-- `--color-brand(?!-)` -/
def patLegacyBrand : MPattern := noLB <|
  pLit "--color-brand".data <| pNegAheadCls (· = '-') <| pDone

/-- `--color-accent(?!-)` -/
def patLegacyAccent : MPattern := noLB <|
  pLit "--color-accent".data <| pNegAheadCls (· = '-') <| pDone

/-- `--color-surface-alt` -/
def patLegacySurfaceAlt : MPattern := noLB <| pLit "--color-surface-alt".data <| pDone

/-- `--fs-(?!hero|h2)` -/
def patLegacyFs : MPattern := noLB <|
  pLit "--fs-".data <| pNegAheadLits ["hero".data, "h2".data] <| pDone

/-- `--lh-(?!tight|body)` -/
def patLegacyLh : MPattern := noLB <|
  pLit "--lh-".data <| pNegAheadLits ["tight".data, "body".data] <| pDone

/-- `--space-[1-7]` -/
def patLegacySpace : MPattern := noLB <|
  pLit "--space-".data <| pCls (fun c => '1' ≤ c && c ≤ '7') <| pDone

/-- `--radius-[1-3]` -/
def patLegacyRadius : MPattern := noLB <|
  pLit "--radius-".data <| pCls (fun c => '1' ≤ c && c ≤ '3') <| pDone

/-- `--shadow-[1-4]` -/
def patLegacyShadow : MPattern := noLB <|
  pLit "--shadow-".data <| pCls (fun c => '1' ≤ c && c ≤ '4') <| pDone

/-- The `legacyPatterns` table of `findLegacyTokens`:
pattern, replacement, message. -/
def legacyPatterns : List (MPattern × Str × Str) := [
  (patLegacyBrand, "--color-brand-primary".data, "Use semantic brand color tokens".data),
  (patLegacyAccent, "--color-brand-secondary".data, "Use semantic brand color tokens".data),
  (patLegacySurfaceAlt, "--color-surface-secondary".data, "Use semantic surface color tokens".data),
  (patLegacyFs, "--font-size-".data, "Use semantic font size tokens".data),
  (patLegacyLh, "--line-height-".data, "Use semantic line height tokens".data),
  (patLegacySpace, "--space-".data, "Use semantic spacing tokens".data),
  (patLegacyRadius, "--radius-".data, "Use semantic radius tokens".data),
  (patLegacyShadow, "--shadow-".data, "Use semantic shadow tokens".data)]

/-- `findLegacyTokens(content, filePath)`: detection only; the suggestion
is `match.replace(pattern, replacement)` and the content is never
modified. -/
def findLegacyTokens (content : Str) : List LegacyIssue :=
  legacyPatterns.flatMap fun prm =>
    (jsMatchAll prm.1 none content).map fun m =>
      ⟨lineOfFirst content m, m, jsReplaceRe prm.1 prm.2.1 none m, prm.2.2⟩

structure FileResult where
  file : Str
  hardcoded : List HardIssue
  unused : List UnusedIssue
  legacy : List LegacyIssue
  total : Nat
deriving DecidableEq

/-- `analyzeFile(filePath)` after a successful read of the page. -/
def analyzeFile (tokensCss : Except Unit Str) (file content : Str) : FileResult :=
  let h := findHardcodedValues content
  let u := findUnusedTokens tokensCss content
  let l := findLegacyTokens content
  ⟨file, h, u, l, h.length + u.length + l.length⟩

def emptyResult (file : Str) : FileResult := ⟨file, [], [], [], 0⟩

/-- One iteration of `main`'s loop: `analyzeFile` under try/catch.  A
failing page read (`Except.error`) is caught, logged to stderr, and
replaced by `{ file, hardcoded: [], unused: [], legacy: [], total: 0 }`. -/
def runAnalyze (fsys : Str → Except Unit Str) (tokensCss : Except Unit Str)
    (file : Str) : FileResult :=
  match fsys file with
  | .ok content => analyzeFile tokensCss file content
  | .error _ => emptyResult file

/-- The `results` array of `main`. -/
def mainResults (fsys : Str → Except Unit Str) (tokensCss : Except Unit Str)
    (files : List Str) : List FileResult :=
  files.map (runAnalyze fsys tokensCss)

/-- `results.reduce((sum, result) => sum + result.total, 0)`. -/
def totalIssues (results : List FileResult) : Nat :=
  results.foldl (fun sum r => sum + r.total) 0

/-- `main` exits with status 1 exactly when `totalIssues > 0`. -/
def mainExitCode (fsys : Str → Except Unit Str) (tokensCss : Except Unit Str)
    (files : List Str) : Nat :=
  if totalIssues (mainResults fsys tokensCss files) > 0 then 1 else 0

/-! ### scripts/check-links.js -/

/-- One `to` entry of an `interlinking-map.json` pattern:
`{ path, anchor, relate? }`. -/
structure ToLink where
  path : Option Str
  anchor : Str
  relate : Bool
deriving DecidableEq

/-- One `patterns` entry: `{ from, to: [...] }` (`from` and `to` are Lean
keywords, hence the field names `fromFile` and `toLinks`). -/
structure LinkPattern where
  fromFile : Str
  toLinks : List ToLink
deriving DecidableEq

structure InterlinkingMap where
  patterns : List LinkPattern
deriving DecidableEq

/-- One element of the `extractLinks` output consumed by
`validateAgainstMap`. -/
structure PageLink where
  source : Str
  href : Str
  text : Str
  line : Nat
deriving DecidableEq

/-- A `missing_expected_link` issue (constant `type` field omitted). -/
structure LinkIssue where
  source : Str
  expected : Str
  message : Str
deriving DecidableEq

/-- `.filter(Boolean)` over the mapped `path`s: drops the falsy values
`undefined`/`null` and the empty string. -/
def jsFilterBoolean (l : List (Option Str)) : List Str :=
  l.filterMap fun o =>
    match o with
    | some s => if s.isEmpty then none else some s
    | none => none

/-- `validateAgainstMap(links, sourceFile)`; the module-level
`interlinkingMap` (null when the JSON could not be read) is passed
explicitly. -/
def validateAgainstMap (interlinkingMap : Option InterlinkingMap)
    (links : List PageLink) (sourceFile : Str) : List LinkIssue :=
  match interlinkingMap with
  | none => []
  | some m =>
    match m.patterns.find? (fun p => p.fromFile == sourceFile) with
    | none => []
    | some expectedLinks =>
      let expectedPaths := jsFilterBoolean (expectedLinks.toLinks.map (·.path))
      let actualPaths := links.map (·.href)
      (expectedPaths.filter (fun ep => !(actualPaths.contains ep))).map fun ep =>
        ⟨sourceFile, ep, "Missing expected link to ".data ++ ep⟩

/-! ### scripts/apply-interlinking-map.js -/

structure Crumb where
  name : Str
  href : Option Str

/-- The hardcoded `breadcrumbMappings` table of `updateBreadcrumbs`. -/
def breadcrumbMappings : List (Str × List Crumb) := [
  ("service-residential.html".data,
    [⟨"Home".data, some "moving-inbound-marketing-home.html".data⟩,
     ⟨"Services".data, some "service-residential.html".data⟩,
     ⟨"Residential Moving".data, none⟩]),
  ("service-office.html".data,
    [⟨"Home".data, some "moving-inbound-marketing-home.html".data⟩,
     ⟨"Services".data, some "service-office.html".data⟩,
     ⟨"Office Moving".data, none⟩]),
  ("service-delivery.html".data,
    [⟨"Home".data, some "moving-inbound-marketing-home.html".data⟩,
     ⟨"Services".data, some "service-delivery.html".data⟩,
     ⟨"Delivery Services".data, none⟩]),
  ("resource-hub.html".data,
    [⟨"Home".data, some "moving-inbound-marketing-home.html".data⟩,
     ⟨"Resources".data, some "resource-hub.html".data⟩,
     ⟨"Resource Hub".data, none⟩]),
  ("service-areas.html".data,
    [⟨"Home".data, some "moving-inbound-marketing-home.html".data⟩,
     ⟨"Service Areas".data, some "service-areas.html".data⟩,
     ⟨"All Areas".data, none⟩])]

/-- JavaScript template interpolation of a possibly-null value. -/
def jsInterp (o : Option Str) : Str :=
  match o with
  | some s => s
  | none => "null".data

/-- One `<li>` of the breadcrumb trail (the `.map` callback). -/
def crumbLi (count : Nat) (i : Nat) (crumb : Crumb) : Str :=
  if i = count - 1 then
    "<li style=\"color: var(--color-text-primary); font-weight: var(--font-weight-medium);\">".data
      ++ crumb.name ++ "</li>".data
  else
    "<li><a href=\"".data ++ jsInterp crumb.href
      ++ "\" style=\"color: var(--color-text-muted); text-decoration: none;\">".data
      ++ crumb.name
      ++ "</a> <span style=\"margin: 0 var(--space-1);\">/</span></li>".data

/-- The `breadcrumbHtml` template literal. -/
def breadcrumbHtml (crumbs : List Crumb) : Str :=
  "\n    <nav aria-label=\"Breadcrumb\" style=\"margin-bottom: var(--space-3);\">\n      <ol style=\"display: flex; list-style: none; padding: 0; margin: 0; gap: var(--space-1); font-size: var(--font-size-sm); color: var(--color-text-muted);\">\n        ".data
  ++ (crumbs.enum.map (fun ic => crumbLi crumbs.length ic.1 ic.2)).flatten
  ++ "\n      </ol>\n    </nav>\n  ".data

/-- `/<\/section>\s*(?=<section|<main)/i` -/
def patHeroEnd : MPattern := noLB <|
  pLitCI "</section>".data <| pStar jsWs <| pAheadCI ["<section".data, "<main".data] <| pDone

/-- `/<main[^>]*>/i` -/
def patMainStart : MPattern := noLB <|
  pLitCI "<main".data <| pStar (fun c => c ≠ '>') <| pChar '>' <| pDone

/-- `updateBreadcrumbs(content, sourceFile)`.  Its entire output is the
returned page text: when a page has a breadcrumb mapping but contains
neither the hero-end nor the main-start anchor, the content is returned
unchanged and nothing else is produced or recorded. -/
def updateBreadcrumbs (content sourceFile : Str) : Str :=
  match breadcrumbMappings.find? (fun m => m.1 == sourceFile) with
  | none => content
  | some bm =>
    let html := breadcrumbHtml bm.2
    if jsTest patHeroEnd none content then
      jsReplaceFirst patHeroEnd (fun _ => "</section>\n  ".data ++ html) none content
    else if jsTest patMainStart none content then
      jsReplaceFirst patMainStart (fun m => m ++ " ".data ++ html) none content
    else content

/-! ### src/design/tokens/index.ts (theme selector) -/

/-- The persisted store (`localStorage`): either every access throws
(storage disabled), or it holds an optional string under the `theme`
key. -/
inductive StorageState
  | throwing
  | store (theme : Option String)
deriving DecidableEq

/-- The ambient browser state touched by the theme API. -/
structure BrowserEnv where
  hasDocument : Bool
  datasetTheme : String
  storage : StorageState
deriving DecidableEq

def themeNames : List String :=
  ["current", "theme-1", "theme-2", "theme-3", "theme-4", "theme-5"]

/-- Runtime semantics of `setTheme(name)`: the `ThemeName` union type is
erased at runtime, so the argument is an arbitrary string.  Without a
`document` the call returns immediately; otherwise it writes
`root.dataset.theme` and then attempts the persistence write, swallowing
a storage failure. -/
def setTheme (name : String) (env : BrowserEnv) : BrowserEnv :=
  if env.hasDocument = false then env
  else
    let env' := { env with datasetTheme := if name = "current" then "" else name }
    match env'.storage with
    | .throwing => env'
    | .store _ => { env' with storage := .store (some name) }

/-- `getSavedTheme()`: reads the persisted value, returns it only when it
is one of the six enumerated names, `null` otherwise; a throwing storage
is caught and yields `null`. -/
def getSavedTheme (env : BrowserEnv) : Option String :=
  match env.storage with
  | .throwing => none
  | .store v =>
    match v with
    | some s =>
      if s = "current" ∨ s = "theme-1" ∨ s = "theme-2" ∨ s = "theme-3" ∨
         s = "theme-4" ∨ s = "theme-5" then some s else none
    | none => none

/-! ### Bridging lemmas -/

theorem containsSub_iff {hay needle : Str} :
    containsSub hay needle = true ↔ needle <:+: hay := by
  rw [containsSub, List.any_eq_true]
  constructor
  · rintro ⟨t, ht, hpre⟩
    rw [List.mem_tails] at ht
    exact List.infix_iff_prefix_suffix.mpr ⟨t, List.isPrefixOf_iff_prefix.mp hpre, ht⟩
  · intro h
    obtain ⟨t, hpre, hsuf⟩ := List.infix_iff_prefix_suffix.mp h
    exact ⟨t, (List.mem_tails _ _).mpr hsuf, List.isPrefixOf_iff_prefix.mpr hpre⟩

theorem jsTrim_infixOf (s : Str) : jsTrim s <:+: s := by
  rw [jsTrim]
  have h1 : (s.dropWhile jsWs).reverse.dropWhile jsWs <:+ (s.dropWhile jsWs).reverse :=
    List.dropWhile_suffix _
  have h2 : ((s.dropWhile jsWs).reverse.dropWhile jsWs).reverse <+: s.dropWhile jsWs := by
    have := List.reverse_prefix.mpr h1
    simpa using this
  exact h2.isInfix.trans (List.dropWhile_suffix jsWs).isInfix

/-! ## Claims -/

/-! ### Theme selector (C1, C9, C10) -/

/-- A browser environment with a document present and `theme-1` both
active and persisted. -/
def envC1 : BrowserEnv := ⟨true, "theme-1", StorageState.store (some "theme-1")⟩

/-- C1 counterexample: the claim says `setTheme(x)` for `x` outside the
enumerated theme set fails with `InvalidTheme`, leaving the in-memory and
persisted selection at the previously active value.  At runtime `setTheme`
performs no validation: `setTheme("bogus")` applies `bogus` to the
document dataset and persists it, and the subsequent read returns `null`
rather than the previously active `theme-1`. -/
theorem setTheme_invalid_applied_counterexample :
    setTheme "bogus" envC1 = ⟨true, "bogus", StorageState.store (some "bogus")⟩ ∧
    getSavedTheme (setTheme "bogus" envC1) = none := by
  constructor
  · rfl
  · rfl

/-- C1 (amended): `setTheme` performs no runtime validation — with a
document present, any name (valid or not) is written to
`root.dataset.theme` and persisted when the store is writable; after
setting a non-enumerated name, `getSavedTheme` returns `null` (the
invalid value is filtered only at read time), not the previously active
value.  The enumerated set is enforced only by the TypeScript type of the
parameter, which is erased at runtime. -/
theorem setTheme_no_runtime_validation (name : String) (env : BrowserEnv)
    (hdoc : env.hasDocument = true) (hname : name ∉ themeNames) :
    (setTheme name env).datasetTheme = name ∧
    (setTheme name env).storage =
      (match env.storage with
       | StorageState.throwing => env.storage
       | StorageState.store _ => StorageState.store (some name)) ∧
    getSavedTheme (setTheme name env) = none := by
  simp only [themeNames, List.mem_cons, List.not_mem_nil, or_false, not_or] at hname
  obtain ⟨h1, h2, h3, h4, h5, h6⟩ := hname
  rw [setTheme, hdoc]
  simp only [Bool.true_eq_false, if_false]
  cases hst : env.storage with
  | throwing =>
    refine ⟨by simp [hst, h1], by simp [hst], ?_⟩
    simp [getSavedTheme, hst]
  | store v =>
    refine ⟨by simp [hst, h1], by simp [hst], ?_⟩
    simp [getSavedTheme, hst, h1, h2, h3, h4, h5, h6]

theorem setTheme_no_runtime_validation_witness :
    (setTheme "bogus" envC1).datasetTheme = "bogus" ∧
    (setTheme "bogus" envC1).storage =
      (match envC1.storage with
       | StorageState.throwing => envC1.storage
       | StorageState.store _ => StorageState.store (some "bogus")) ∧
    getSavedTheme (setTheme "bogus" envC1) = none :=
  setTheme_no_runtime_validation "bogus" envC1 rfl (by decide)

/-- C9: over every storage state (absent value, arbitrary stored string,
or a store whose accesses throw), `getSavedTheme` returns `some v` exactly
when the store holds `v` and `v` is one of the six enumerated theme names,
and `null` in every other case; totality of the embedding reflects that
the `try/catch` never lets an exception escape. -/
theorem getSavedTheme_valid_or_null (env : BrowserEnv) (v : String) :
    getSavedTheme env = some v ↔
      env.storage = StorageState.store (some v) ∧ v ∈ themeNames := by
  cases hst : env.storage with
  | throwing => simp [getSavedTheme, hst]
  | store ov =>
    cases ov with
    | none => simp [getSavedTheme, hst]
    | some s =>
      rw [getSavedTheme]
      simp only [hst]
      by_cases hv : s = "current" ∨ s = "theme-1" ∨ s = "theme-2" ∨ s = "theme-3" ∨
          s = "theme-4" ∨ s = "theme-5"
      · simp only [hv, if_true, Option.some.injEq, StorageState.store.injEq]
        constructor
        · rintro rfl
          exact ⟨rfl, by simpa [themeNames] using hv⟩
        · rintro ⟨rfl, _⟩
          rfl
      · simp only [hv, if_false, StorageState.store.injEq, Option.some.injEq]
        constructor
        · intro h
          exact Option.noConfusion h
        · rintro ⟨rfl, hmem⟩
          exact absurd (by simpa [themeNames] using hmem) hv

/-- C10: in a non-browser environment (`typeof document === "undefined"`),
`setTheme` returns immediately for every name: the document state and the
persistent store are both left untouched. -/
theorem setTheme_noop_without_document (name : String) (env : BrowserEnv)
    (h : env.hasDocument = false) : setTheme name env = env := by
  rw [setTheme, h]
  simp

theorem setTheme_noop_without_document_witness :
    setTheme "theme-2" ⟨false, "", StorageState.store none⟩ =
      ⟨false, "", StorageState.store none⟩ :=
  setTheme_noop_without_document "theme-2" ⟨false, "", StorageState.store none⟩ rfl

/-! ### Legacy-token detector (C5) -/

/-- C5 counterexample: the claim says text containing `var(--old-space-1)`
with a legacy mapping `--space-1 -> --space-sm` yields exactly one
legacy-token finding suggesting `var(--space-sm)`.  The detector's legacy
mappings are hardcoded and contain no such entry; none of its eight
patterns matches inside `var(--old-space-1)` (the `--space-[1-7]` pattern
requires a double dash immediately before `space`), so the detector yields
zero findings for this text. -/
theorem findLegacyTokens_old_space_counterexample :
    findLegacyTokens "var(--old-space-1)".data = [] := by decide

/-- C5 (amended): the legacy mappings are hardcoded in the detector
(`--space-[1-7] -> --space-`, not `--space-1 -> --space-sm`);
`var(--old-space-1)` matches no legacy pattern and yields no finding,
while text containing `--space-1` (e.g. `var(--space-1)`) yields exactly
one legacy-token finding whose suggested replacement is `--space-` (the
replacement string truncates the digit).  The detector returns findings
only and never modifies the text. -/
theorem findLegacyTokens_space1 :
    findLegacyTokens "var(--space-1)".data =
      [⟨1, "--space-1".data, "--space-".data, "Use semantic spacing tokens".data⟩] := by
  decide

/-! ### Breadcrumb synthesis (C6) -/

/-- C6 counterexample: the claim says a page with neither insertion point
is left unmodified AND a findable `NoInsertionPoint` record is produced.
`updateBreadcrumbs` is the entire breadcrumb step and its only output is
the returned page text; for a mapped page without hero or main anchors
that output equals the input exactly, so nothing records the condition —
it is silently dropped. -/
theorem updateBreadcrumbs_silent_drop_counterexample :
    updateBreadcrumbs "<p>Residential page</p>".data "service-residential.html".data =
      "<p>Residential page</p>".data := by decide

/-- C6 (amended): when a page contains neither the hero-end anchor
(`</section>` followed by `<section`/`<main`) nor a `<main>` opening tag,
breadcrumb synthesis returns the page text unchanged; the condition is
silently dropped — no record of any kind is produced (the function's only
output is the text). -/
theorem updateBreadcrumbs_no_insertion_point (content sourceFile : Str)
    (hh : jsTest patHeroEnd none content = false)
    (hm : jsTest patMainStart none content = false) :
    updateBreadcrumbs content sourceFile = content := by
  rw [updateBreadcrumbs]
  cases breadcrumbMappings.find? (fun m => m.1 == sourceFile) with
  | none => rfl
  | some bm => simp [hh, hm]

theorem updateBreadcrumbs_no_insertion_point_witness :
    updateBreadcrumbs "<div>x</div>".data "resource-hub.html".data = "<div>x</div>".data :=
  updateBreadcrumbs_no_insertion_point "<div>x</div>".data "resource-hub.html".data
    (by decide) (by decide)

/-! ### Partial-failure isolation of the audit (C7) -/

/-- A file system where `good.html` reads as `hello` and every other
read throws. -/
def fsysC7 : Str → Except Unit Str := fun f =>
  if f == "good.html".data then Except.ok "hello".data else Except.error ()

/-- C7 counterexample: the claim says a page read error is recorded as a
finding attributed to that page, visible in the report and affecting the
exit status.  In `main` of verify-design-tokens.js (and identically in
check-links.js) the catch branch only logs to stderr and substitutes an
empty result with `total: 0`: with one unreadable page and one clean
page, the results contain no finding at all and the process exits 0. -/
theorem page_error_not_a_finding_counterexample :
    mainResults fsysC7 (Except.error ()) ["bad.html".data, "good.html".data] =
      [emptyResult "bad.html".data, ⟨"good.html".data, [], [], [], 0⟩] ∧
    mainExitCode fsysC7 (Except.error ()) ["bad.html".data, "good.html".data] = 0 := by
  constructor
  · decide
  · decide

/-- C7 (amended): the audit never throws on a single page's failure and
continues with every remaining page (one result per input file), but the
error is only logged: the failing page contributes an empty result with
zero findings, so it is invisible in the findings and does not affect the
exit status. -/
theorem runAnalyze_error_empty (fsys : Str → Except Unit Str)
    (tokensCss : Except Unit Str) (files : List Str) (f : Str)
    (hf : fsys f = Except.error ()) (hmem : f ∈ files) :
    runAnalyze fsys tokensCss f = emptyResult f ∧
    emptyResult f ∈ mainResults fsys tokensCss files ∧
    (mainResults fsys tokensCss files).length = files.length := by
  have hrun : runAnalyze fsys tokensCss f = emptyResult f := by
    rw [runAnalyze, hf]
  refine ⟨hrun, ?_, ?_⟩
  · rw [mainResults]
    exact List.mem_map.mpr ⟨f, hmem, hrun⟩
  · rw [mainResults, List.length_map]

theorem runAnalyze_error_empty_witness :
    runAnalyze fsysC7 (Except.error ()) "bad.html".data = emptyResult "bad.html".data ∧
    emptyResult "bad.html".data ∈
      mainResults fsysC7 (Except.error ()) ["bad.html".data, "good.html".data] ∧
    (mainResults fsysC7 (Except.error ()) ["bad.html".data, "good.html".data]).length =
      ["bad.html".data, "good.html".data].length :=
  runAnalyze_error_empty fsysC7 (Except.error ()) ["bad.html".data, "good.html".data]
    "bad.html".data rfl (by decide)

/-! ### Link auditor: relation-tagged edges (C4) -/

/-- An interlinking map whose single edge from `a.html` is tagged
`relate: true`. -/
def relateOnlyMap : InterlinkingMap :=
  ⟨[⟨"a.html".data, [⟨some "b.html".data, "B".data, true⟩]⟩]⟩

/-- C4 counterexample: the claim says an edge tagged with a relation is
never required to appear as an anchor and never produces a
missing-expected-link finding.  `validateAgainstMap` collects
`expectedLinks.to.map(link => link.path).filter(Boolean)` without ever
consulting the `relate` tag, so a relation-tagged edge whose path is
absent from the page's anchors does produce a `missing_expected_link`
finding. -/
theorem validateAgainstMap_relate_counterexample :
    validateAgainstMap (some relateOnlyMap) [] "a.html".data =
      [⟨"a.html".data, "b.html".data, "Missing expected link to b.html".data⟩] := by
  decide

/-- C4 (amended): `missing_expected_link` findings for a page are exactly
the non-falsy `path`s of the page's map entry that are absent from the
page's actual anchor targets, regardless of any `relate` tag — the
auditor does not exempt relation-tagged edges (only the separate link
rewriter skips them). -/
theorem validateAgainstMap_missing_iff (m : InterlinkingMap)
    (links : List PageLink) (sourceFile p : Str) :
    (∃ iss ∈ validateAgainstMap (some m) links sourceFile, iss.expected = p) ↔
      ∃ pat, m.patterns.find? (fun q => q.fromFile == sourceFile) = some pat ∧
        p ∈ jsFilterBoolean (pat.toLinks.map (·.path)) ∧
        p ∉ links.map (·.href) := by
  rw [validateAgainstMap]
  cases hfind : m.patterns.find? (fun q => q.fromFile == sourceFile) with
  | none =>
    simp only [List.not_mem_nil, false_and, exists_false, false_iff, not_exists, not_and]
    intro pat hpat
    exact absurd hpat (by simp)
  | some pat =>
    constructor
    · rintro ⟨iss, hmem, hexp⟩
      obtain ⟨ep, hep, hiss⟩ := List.mem_map.mp hmem
      obtain ⟨hin, hnotin⟩ := List.mem_filter.mp hep
      refine ⟨pat, rfl, ?_, ?_⟩
      · rw [← hexp, ← hiss]
        exact hin
      · rw [← hexp, ← hiss]
        simpa using hnotin
    · rintro ⟨pat2, hpat2, hin, hnotin⟩
      have hpe : pat2 = pat := (Option.some.inj hpat2).symm
      subst hpe
      refine ⟨⟨sourceFile, p, "Missing expected link to ".data ++ p⟩, ?_, rfl⟩
      apply List.mem_map.mpr
      refine ⟨p, ?_, rfl⟩
      apply List.mem_filter.mpr
      exact ⟨hin, by simpa using hnotin⟩

/-! ### Hardcoded-literal detector: suppression and ordering (C2, C8) -/

theorem mem_hardIssuesFor {content : Str} {pi : Nat × MPattern} {f : HardIssue}
    (hf : f ∈ hardIssuesFor content pi) :
    f.pattern = pi.1 ∧ ∃ m ∈ jsMatchAll pi.2 none content,
      (∀ e ∈ ALLOWED_EXCEPTIONS, containsSub m e = false) ∧
      f.value = jsTrim m ∧ f.line = lineOfFirst content m := by
  rw [hardIssuesFor] at hf
  obtain ⟨m, hm, hsome⟩ := List.mem_filterMap.mp hf
  by_cases hexc : ALLOWED_EXCEPTIONS.any (fun e => containsSub m e) = true
  · rw [if_pos hexc] at hsome
    exact Option.noConfusion hsome
  · rw [if_neg hexc] at hsome
    have hfe := Option.some.inj hsome
    have hall : ∀ e ∈ ALLOWED_EXCEPTIONS, containsSub m e = false := by
      intro e he
      have := List.any_eq_false.mp (Bool.not_eq_true _ ▸ hexc) e he
      simpa using this
    exact ⟨by rw [← hfe], m, hm, hall, by rw [← hfe], by rw [← hfe]⟩

theorem hardIssuesFor_mem {content : Str} {pi : Nat × MPattern} {m : Str}
    (hm : m ∈ jsMatchAll pi.2 none content)
    (hexc : ∀ e ∈ ALLOWED_EXCEPTIONS, containsSub m e = false) :
    (⟨lineOfFirst content m, jsTrim m, pi.1⟩ : HardIssue) ∈ hardIssuesFor content pi := by
  rw [hardIssuesFor]
  apply List.mem_filterMap.mpr
  refine ⟨m, hm, ?_⟩
  rw [if_neg ?_]
  rw [Bool.not_eq_true]
  exact List.any_eq_false.mpr (fun e he => by simp [hexc e he])

theorem mem_enumFrom_fst_le {α : Type} (l : List α) :
    ∀ (n : Nat), ∀ pi ∈ l.enumFrom n, n ≤ pi.1 := by
  induction l with
  | nil =>
    intro n pi h
    simp [List.enumFrom] at h
  | cons x xs ih =>
    intro n pi h
    rw [List.enumFrom] at h
    rcases List.mem_cons.mp h with h | h
    · rw [h]
    · exact Nat.le_of_succ_le (ih (n + 1) pi h)

theorem enumFrom_pairwise_fst_le {α : Type} (l : List α) :
    ∀ (n : Nat), List.Pairwise (fun a b : Nat × α => a.1 ≤ b.1) (l.enumFrom n) := by
  induction l with
  | nil => intro n; simp [List.enumFrom]
  | cons x xs ih =>
    intro n
    rw [List.enumFrom]
    refine List.Pairwise.cons ?_ (ih (n + 1))
    intro pj hj
    exact Nat.le_of_succ_le (mem_enumFrom_fst_le xs (n + 1) pj hj)

theorem flatMap_hardIssues_pairwise (content : Str) :
    ∀ (l : List (Nat × MPattern)),
      List.Pairwise (fun a b : Nat × MPattern => a.1 ≤ b.1) l →
      List.Pairwise (· ≤ ·) ((l.flatMap (hardIssuesFor content)).map (·.pattern)) := by
  intro l
  induction l with
  | nil => intro _; simp
  | cons pi rest ih =>
    intro hpw
    rw [List.flatMap_cons, List.map_append]
    apply List.pairwise_append.mpr
    have hhead : ∀ x ∈ (hardIssuesFor content pi).map (·.pattern), x = pi.1 := by
      intro x hx
      obtain ⟨f, hf, hfx⟩ := List.mem_map.mp hx
      rw [← hfx]
      exact (mem_hardIssuesFor hf).1
    refine ⟨?_, ih hpw.of_cons, ?_⟩
    · exact List.pairwise_of_forall_mem_list
        (fun a ha b hb => by rw [hhead a ha, hhead b hb])
    · intro a ha b hb
      obtain ⟨f, hf, hfb⟩ := List.mem_map.mp hb
      obtain ⟨pj, hpj, hfj⟩ := List.mem_flatMap.mp hf
      rw [hhead a ha, ← hfb, (mem_hardIssuesFor hfj).1]
      exact List.rel_of_pairwise_cons hpw hpj

/-- C2 counterexample: the claim says a match is suppressed iff the
matched text is identical to a member of the exception set, and that a
match merely containing an exception as a substring is still reported.
The hex pattern matches `#FFD700`, which equals no exception but contains
the exception `0` as a substring; the suppression test is
`match.includes(exception)`, so the detector reports nothing for this
text. -/
theorem findHardcodedValues_includes_counterexample :
    jsMatchAll patHexColor none "color: #FFD700;".data = ["#FFD700".data] ∧
    (∃ e ∈ ALLOWED_EXCEPTIONS, containsSub "#FFD700".data e = true ∧ "#FFD700".data ≠ e) ∧
    findHardcodedValues "color: #FFD700;".data = [] := by decide

/-- C2 (amended): a match of the hardcoded-literal detector is suppressed
iff some member of the allowed-exception set occurs as a substring of the
matched text (`match.includes(exception)`), not only when it is identical
to one: no reported finding's value contains an exception as a substring,
and every match containing no exception is reported with its pattern
index, trimmed text, and first-occurrence line. -/
theorem findHardcodedValues_suppression (content : Str) :
    (∀ f ∈ findHardcodedValues content, ∀ e ∈ ALLOWED_EXCEPTIONS,
      containsSub f.value e = false) ∧
    (∀ i : Fin HARDCODED_PATTERNS.length,
      ∀ m ∈ jsMatchAll (HARDCODED_PATTERNS.get i) none content,
        (∀ e ∈ ALLOWED_EXCEPTIONS, containsSub m e = false) →
        ∃ f ∈ findHardcodedValues content,
          f.pattern = i.1 ∧ f.value = jsTrim m ∧ f.line = lineOfFirst content m) := by
  constructor
  · intro f hf e he
    rw [findHardcodedValues] at hf
    obtain ⟨pi, _, hf2⟩ := List.mem_flatMap.mp hf
    obtain ⟨_, ⟨m, _, hall, hval, _⟩⟩ := mem_hardIssuesFor hf2
    rw [hval]
    cases hcv : containsSub (jsTrim m) e with
    | false => rfl
    | true =>
      have hinf : e <:+: m := (containsSub_iff.mp hcv).trans (jsTrim_infixOf m)
      exact absurd (containsSub_iff.mpr hinf) (by simp [hall e he])
  · intro i m hm hexc
    refine ⟨⟨lineOfFirst content m, jsTrim m, i.1⟩, ?_, rfl, rfl, rfl⟩
    rw [findHardcodedValues]
    apply List.mem_flatMap.mpr
    refine ⟨(i.1, HARDCODED_PATTERNS.get i), ?_, hardIssuesFor_mem hm hexc⟩
    apply List.mem_enum_iff_getElem?.mpr
    rw [List.getElem?_eq_getElem i.2, List.get_eq_getElem]

theorem findHardcodedValues_suppression_witness :
    ∃ f ∈ findHardcodedValues "1.5rem".data,
      f.pattern = (⟨3, by decide⟩ : Fin HARDCODED_PATTERNS.length).1 ∧
      f.value = jsTrim "1.5rem".data ∧
      f.line = lineOfFirst "1.5rem".data "1.5rem".data :=
  (findHardcodedValues_suppression "1.5rem".data).2 ⟨3, by decide⟩ "1.5rem".data
    (by decide) (by decide)

/-- C8 counterexample: the claim says one page's findings are emitted in
line-ascending order and that distinct occurrences of the same matched
text report their own lines.  With a z-index literal on line 1 and a hex
color on line 2, the hex pattern (index 0) runs before the z-index
pattern (index 7), so the emitted lines are `[2, 1]`; and for a page with
two occurrences of `#abc` on lines 1 and 2 both findings report line 1,
because the line is computed from `content.indexOf(match)` — the first
occurrence of the matched text. -/
theorem findHardcodedValues_order_counterexample :
    (findHardcodedValues "z-index: 99\n#abcdef".data).map (·.line) = [2, 1] ∧
    jsMatchAll patHexColor none "#abc\nx #abc".data = ["#abc".data, "#abc".data] ∧
    (findHardcodedValues "#abc\nx #abc".data).map (fun f => (f.line, f.value)) =
      [(1, "#abc".data), (1, "#abc".data)] := by decide

/-- C8 (amended): findings of one page's hardcoded-literal audit are
emitted grouped by pattern in the fixed pattern order (the emitted
pattern indices are non-decreasing), and every finding's reported line
number is the line of the *first* occurrence of its matched text in the
page — so repeated matched texts share the first occurrence's line and
emission order is not globally line-ascending. -/
theorem findHardcodedValues_grouped (content : Str) :
    List.Pairwise (· ≤ ·) ((findHardcodedValues content).map (·.pattern)) ∧
    ∀ f ∈ findHardcodedValues content,
      ∃ hp : f.pattern < HARDCODED_PATTERNS.length,
        ∃ m ∈ jsMatchAll (HARDCODED_PATTERNS.get ⟨f.pattern, hp⟩) none content,
          f.value = jsTrim m ∧ f.line = lineOfFirst content m := by
  constructor
  · rw [findHardcodedValues, List.enum]
    exact flatMap_hardIssues_pairwise content _
      (enumFrom_pairwise_fst_le HARDCODED_PATTERNS 0)
  · intro f hf
    rw [findHardcodedValues] at hf
    obtain ⟨pi, hpi, hf2⟩ := List.mem_flatMap.mp hf
    obtain ⟨hpat, m, hm, _, hval, hline⟩ := mem_hardIssuesFor hf2
    have hget := List.mem_enum_iff_getElem?.mp hpi
    obtain ⟨hlt, hgeteq⟩ := List.getElem?_eq_some.mp hget
    refine ⟨by rw [hpat]; exact hlt, m, ?_, hval, hline⟩
    have : HARDCODED_PATTERNS.get ⟨f.pattern, by rw [hpat]; exact hlt⟩ = pi.2 := by
      simp only [hpat, List.get_eq_getElem]
      exact hgeteq
    rw [this]
    exact hm

/-! ### Token rewriting is idempotent (C3) -/

/-- C3: `applyTokenReplacements` is idempotent — applying the
token-replacement rewrite to its own output yields the same text for
every input.  The proof shows that no literal of the replacement table
can overlap any inserted replacement string (`charMappings_safe`), so one
pass removes every occurrence of every literal and a second pass finds
nothing to replace. -/
theorem applyTokenReplacements_idem (t : String) :
    applyTokenReplacements (applyTokenReplacements t) = applyTokenReplacements t :=
  congrArg String.mk (applyMappingsL_idem charMappings charMappings_safe t.data)

theorem findHardcodedValues_grouped_witness :
    ∃ hp : (⟨2, "#abcdef".data, 0⟩ : HardIssue).pattern < HARDCODED_PATTERNS.length,
      ∃ m ∈ jsMatchAll
          (HARDCODED_PATTERNS.get ⟨(⟨2, "#abcdef".data, 0⟩ : HardIssue).pattern, hp⟩)
          none "z-index: 99\n#abcdef".data,
        (⟨2, "#abcdef".data, 0⟩ : HardIssue).value = jsTrim m ∧
        (⟨2, "#abcdef".data, 0⟩ : HardIssue).line =
          lineOfFirst "z-index: 99\n#abcdef".data m :=
  (findHardcodedValues_grouped "z-index: 99\n#abcdef".data).2
    ⟨2, "#abcdef".data, 0⟩ (by decide)
